import Mathlib

/-!
# Verification of the gdbm-native on-disk structural core

Shallow embedding of `src/bucket.rs` and `src/dir.rs` of the
`gdbm-native-rs` repository: the Bucket / BucketElement / Directory
binary codecs and the BucketCache dirty-tracking cache.

A byte source is a `List Nat` of bytes; a reader consumes a prefix of it
and returns the decoded value together with the remaining bytes, or an
`IoError`.  Machine integers are `Nat` (field-range hypotheses carry the
`u32`/`u64` bounds where round-trips need them).
-/

set_option maxRecDepth 10000

namespace Gdbm

/-- Model of `std::io::Error` as used by this code: `byteorder`'s
`read_u16/u32/u64` fail with `ErrorKind::UnexpectedEof` on a short read,
and `Bucket::from_reader` builds an `ErrorKind::Other` error with message
"invalid bucket c/b". -/
inductive IoError where
  | unexpectedEof : IoError
  | other : String → IoError
deriving DecidableEq, Repr

/-- `rdr.read_u32::<LittleEndian>()`: consume 4 bytes, little-endian. -/
def read_u32_le (s : List Nat) : Except IoError (Nat × List Nat) :=
  match s with
  | b0 :: b1 :: b2 :: b3 :: rest =>
      .ok (b0 + 256 * b1 + 65536 * b2 + 16777216 * b3, rest)
  | _ => .error .unexpectedEof

/-- `rdr.read_u32::<BigEndian>()`: consume 4 bytes, big-endian. -/
def read_u32_be (s : List Nat) : Except IoError (Nat × List Nat) :=
  match s with
  | b0 :: b1 :: b2 :: b3 :: rest =>
      .ok (16777216 * b0 + 65536 * b1 + 256 * b2 + b3, rest)
  | _ => .error .unexpectedEof

/-- `rdr.read_u64::<LittleEndian>()`: consume 8 bytes, little-endian. -/
def read_u64_le (s : List Nat) : Except IoError (Nat × List Nat) :=
  match s with
  | b0 :: b1 :: b2 :: b3 :: b4 :: b5 :: b6 :: b7 :: rest =>
      .ok (b0 + 2^8 * b1 + 2^16 * b2 + 2^24 * b3 + 2^32 * b4 + 2^40 * b5
            + 2^48 * b6 + 2^56 * b7, rest)
  | _ => .error .unexpectedEof

/-- `rdr.read_u64::<BigEndian>()`: consume 8 bytes, big-endian. -/
def read_u64_be (s : List Nat) : Except IoError (Nat × List Nat) :=
  match s with
  | b0 :: b1 :: b2 :: b3 :: b4 :: b5 :: b6 :: b7 :: rest =>
      .ok (2^56 * b0 + 2^48 * b1 + 2^40 * b2 + 2^32 * b3 + 2^24 * b4
            + 2^16 * b5 + 2^8 * b6 + b7, rest)
  | _ => .error .unexpectedEof

/-- `rdr.read(&mut key_start)` where `key_start` is a zero-initialised
`[u8; 4]`: a plain `Read::read` on a byte source fills up to 4 bytes and
never fails, leaving untouched array entries at 0 when fewer than 4 bytes
remain. -/
def read_key_start (s : List Nat) : List Nat × List Nat :=
  (s.take 4 ++ List.replicate (4 - s.length) 0, s.drop 4)

/-- Modelled from the spec: `crate::ser::w32` (primitive codec,
`write_fixed_width_uint(4, byte_order, value)`), not under `src/`.
Emits 4 bytes of `v` in the selected byte order. -/
def w32 (is_le : Bool) (v : Nat) : List Nat :=
  if is_le then
    [v % 256, v / 2^8 % 256, v / 2^16 % 256, v / 2^24 % 256]
  else
    [v / 2^24 % 256, v / 2^16 % 256, v / 2^8 % 256, v % 256]

/-- Modelled from the spec: the 8-byte arm of the primitive codec's
`write_offset` (`crate::ser`, not under `src/`). -/
def w64 (is_le : Bool) (v : Nat) : List Nat :=
  if is_le then
    [v % 256, v / 2^8 % 256, v / 2^16 % 256, v / 2^24 % 256,
     v / 2^32 % 256, v / 2^40 % 256, v / 2^48 % 256, v / 2^56 % 256]
  else
    [v / 2^56 % 256, v / 2^48 % 256, v / 2^40 % 256, v / 2^32 % 256,
     v / 2^24 % 256, v / 2^16 % 256, v / 2^8 % 256, v % 256]

/-- Modelled from the spec: `crate::ser::woff_t`
(`write_offset(wide, byte_order, value)`, not under `src/`): 4 bytes when
`is_lfs` is false, 8 bytes when true, in the selected byte order. -/
def woff_t (is_lfs is_le : Bool) (v : Nat) : List Nat :=
  if is_lfs then w64 is_le v else w32 is_le v

theorem read_u32_le_w32 (v : Nat) (h : v < 2^32) (rest : List Nat) :
    read_u32_le (w32 true v ++ rest) = .ok (v, rest) := by
  simp only [w32, read_u32_le, reduceIte, List.cons_append, List.nil_append,
    Except.ok.injEq, Prod.mk.injEq, and_true]
  omega

theorem read_u32_be_w32 (v : Nat) (h : v < 2^32) (rest : List Nat) :
    read_u32_be (w32 false v ++ rest) = .ok (v, rest) := by
  simp only [w32, read_u32_be, Bool.false_eq_true, reduceIte, List.cons_append,
    List.nil_append, Except.ok.injEq, Prod.mk.injEq, and_true]
  omega

theorem read_u64_le_w64 (v : Nat) (h : v < 2^64) (rest : List Nat) :
    read_u64_le (w64 true v ++ rest) = .ok (v, rest) := by
  simp only [w64, read_u64_le, reduceIte, List.cons_append, List.nil_append,
    Except.ok.injEq, Prod.mk.injEq, and_true]
  omega

theorem read_u64_be_w64 (v : Nat) (h : v < 2^64) (rest : List Nat) :
    read_u64_be (w64 false v ++ rest) = .ok (v, rest) := by
  simp only [w64, read_u64_be, Bool.false_eq_true, reduceIte, List.cons_append,
    List.nil_append, Except.ok.injEq, Prod.mk.injEq, and_true]
  omega

theorem w32_length (is_le : Bool) (v : Nat) : (w32 is_le v).length = 4 := by
  cases is_le <;> simp [w32]

theorem w64_length (is_le : Bool) (v : Nat) : (w64 is_le v).length = 8 := by
  cases is_le <;> simp [w64]

theorem woff_t_length (is_lfs is_le : Bool) (v : Nat) :
    (woff_t is_lfs is_le v).length = if is_lfs then 8 else 4 := by
  cases is_lfs <;> simp [woff_t, w32_length, w64_length]

/-- Modelled from the spec: `crate::ser::Alignment` (32- vs 64-bit offset
width), not under `src/`. -/
inductive Alignment where
  | align32 : Alignment
  | align64 : Alignment
deriving DecidableEq, Repr

/-- Modelled from the spec: `crate::ser::Endian` (byte order), not under
`src/`. -/
inductive Endian where
  | little : Endian
  | big : Endian
deriving DecidableEq, Repr

def Alignment.isWide : Alignment → Bool
  | .align32 => false
  | .align64 => true

def Endian.isLE : Endian → Bool
  | .little => true
  | .big => false

/-- Modelled from the spec: the `Alignment`/`Endian`-typed `woff_t` of
`crate::ser` used by `dir.rs` (same offset writer as the boolean-flag
variant used by `bucket.rs`). -/
def woff_t_al (a : Alignment) (e : Endian) (v : Nat) : List Nat :=
  woff_t a.isWide e.isLE v

/-- Modelled from the spec: `crate::KEY_SMALL`, the inline key-start
size; the spec fixes `key_prefix` at 4 bytes. -/
def KEY_SMALL : Nat := 4

/-- Modelled from the spec: the geometry fields of the external
`crate::Header` that `bucket.rs` and `dir.rs` consume (spec §3): offset
width (`is_lfs` / `alignment`), byte order, bucket capacity, directory
bit depth, and directory location/size. -/
structure Header where
  is_lfs : Bool
  bucket_elems : Nat
  dir_bits : Nat
  dir_ofs : Nat
  dir_sz : Nat
  alignment : Alignment
  endian : Endian

/-- `pub const BUCKET_AVAIL: u32 = 6`. -/
def BUCKET_AVAIL : Nat := 6

/-- Modelled from the spec: `crate::AvailElem`, a free-space descriptor
`{size: u32, offset: u64}` (spec §3), not under `src/`. -/
structure AvailElem where
  sz : Nat
  addr : Nat
deriving DecidableEq, Repr

/-- Modelled from the spec: `AvailElem::from_reader(is_lfs, rdr)` reads
`size` (4 bytes) then the width-dependent `offset` (spec §6:
`size:4 + offset:4-or-8`), little-endian like its caller
`Bucket::from_reader`, which passes only the offset-width flag. -/
def AvailElem.from_reader (is_lfs : Bool) (s : List Nat) :
    Except IoError (AvailElem × List Nat) := do
  let (sz, s) ← read_u32_le s
  let (addr, s) ← if is_lfs then read_u64_le s else read_u32_le s
  .ok (⟨sz, addr⟩, s)

/-- Modelled from the spec: `AvailElem::serialize(is_lfs, is_le)` emits
`size(4) + offset(4-or-8)` (spec §6). -/
def AvailElem.serialize (e : AvailElem) (is_lfs is_le : Bool) : List Nat :=
  w32 is_le e.sz ++ woff_t is_lfs is_le e.addr

/-- `struct BucketElement` (`src/bucket.rs`). `key_start` is `[u8; 4]` in
Rust; here a `List Nat` whose length-4 invariant travels as a hypothesis. -/
structure BucketElement where
  hash : Nat
  key_start : List Nat
  data_ofs : Nat
  key_size : Nat
  data_size : Nat
deriving DecidableEq, Repr

/-- `BucketElement::from_reader(is_lfs, rdr)` (`src/bucket.rs`): reads
`hash` (u32 LE), 4 raw `key_start` bytes via a plain `read`, the
width-dependent `data_ofs` (LE), then `key_size` and `data_size` (u32 LE). -/
def BucketElement.from_reader (is_lfs : Bool) (s : List Nat) :
    Except IoError (BucketElement × List Nat) := do
  let (hash, s) ← read_u32_le s
  let (key_start, s) := read_key_start s
  let (data_ofs, s) ← if is_lfs then read_u64_le s else read_u32_le s
  let (key_size, s) ← read_u32_le s
  let (data_size, s) ← read_u32_le s
  .ok (⟨hash, key_start, data_ofs, key_size, data_size⟩, s)

/-- `BucketElement::serialize(is_lfs, is_le)` (`src/bucket.rs`):
`w32(hash) ++ key_start ++ woff_t(data_ofs) ++ w32(key_size) ++
w32(data_size)`. -/
def BucketElement.serialize (e : BucketElement) (is_lfs is_le : Bool) :
    List Nat :=
  w32 is_le e.hash ++ e.key_start ++ woff_t is_lfs is_le e.data_ofs
    ++ w32 is_le e.key_size ++ w32 is_le e.data_size

/-- The `for _idx in 0..n { v.push(reader(...)?) }` loops of
`Bucket::from_reader` and `dir_reader`: run a sub-reader `n` times,
collecting results in order; the first error aborts the whole read. -/
def readN {α : Type} (n : Nat)
    (dec : List Nat → Except IoError (α × List Nat)) (s : List Nat) :
    Except IoError (List α × List Nat) :=
  match n with
  | 0 => .ok ([], s)
  | n + 1 => do
    let (a, s) ← dec s
    let (l, s) ← readN n dec s
    .ok (a :: l, s)

/-- `struct Bucket` (`src/bucket.rs`). -/
structure Bucket where
  av_count : Nat
  avail : List AvailElem
  bits : Nat
  count : Nat
  tab : List BucketElement
deriving DecidableEq, Repr

/-- `Bucket::from_reader(header, rdr)` (`src/bucket.rs`): reads
`av_count`, an unconditional 4-byte padding word, exactly `BUCKET_AVAIL`
avail elements, `bits` and `count` (all little-endian); rejects
`count > bucket_elems || bits > dir_bits` with the `ErrorKind::Other`
error "invalid bucket c/b"; then reads `bucket_elems` bucket elements. -/
def Bucket.from_reader (header : Header) (s : List Nat) :
    Except IoError (Bucket × List Nat) := do
  let (av_count, s) ← read_u32_le s
  let (_padding, s) ← read_u32_le s
  let (avail, s) ← readN BUCKET_AVAIL (AvailElem.from_reader header.is_lfs) s
  let (bits, s) ← read_u32_le s
  let (count, s) ← read_u32_le s
  if ¬(count ≤ header.bucket_elems ∧ bits ≤ header.dir_bits) then
    .error (.other "invalid bucket c/b")
  else do
    let (tab, s) ← readN header.bucket_elems
      (BucketElement.from_reader header.is_lfs) s
    .ok (⟨av_count, avail, bits, count, tab⟩, s)

/-- The `assert_eq!(self.avail.len(), BUCKET_AVAIL as usize)` guard at the
top of the avail section of `Bucket::serialize`. -/
def Bucket.serializeAssert (b : Bucket) : Bool :=
  b.avail.length == BUCKET_AVAIL

/-- `Bucket::serialize(is_lfs, is_le)` (`src/bucket.rs`): `av_count`,
padding only when `is_lfs`, the avail elements, `bits`, `count`, then the
element table. -/
def Bucket.serialize (b : Bucket) (is_lfs is_le : Bool) : List Nat :=
  w32 is_le b.av_count
    ++ (if is_lfs then w32 is_le 0 else [])
    ++ (b.avail.map (AvailElem.serialize · is_lfs is_le)).flatten
    ++ w32 is_le b.bits ++ w32 is_le b.count
    ++ (b.tab.map (BucketElement.serialize · is_lfs is_le)).flatten

/-- Encoded size of one bucket element:
`hash(4) + key_start(4) + data_ofs(4-or-8) + key_size(4) + data_size(4)`,
i.e. 20 bytes narrow, 24 wide. -/
def bucketElementSize (is_lfs : Bool) : Nat := if is_lfs then 24 else 20

/-- Encoded size of one avail element: 8 bytes narrow, 12 wide. -/
def availElemSize (is_lfs : Bool) : Nat := if is_lfs then 12 else 8

/-- Number of bytes `Bucket::from_reader` consumes on a successful
decode: `av_count` + padding + 6 avail elements + `bits` + `count` +
`bucket_elems` table entries. -/
def bucketMinSize (header : Header) : Nat :=
  8 + BUCKET_AVAIL * availElemSize header.is_lfs + 8
    + header.bucket_elems * bucketElementSize header.is_lfs

/-- Modelled from the spec: `crate::GDBM_HASH_BITS`, the full hash bit
width; the sizing cap sits three bits below it (spec §4.4).  gdbm's hash
occupies 31 bits; only `GDBM_HASH_BITS - 3 ≥ 9` matters to the claims
settled here. -/
def GDBM_HASH_BITS : Nat := 31

/-- The `while dir_size < block_sz && dir_bits < GDBM_HASH_BITS - 3`
loop of `build_dir_size` (`src/dir.rs`), doubling `dir_size` and
incrementing `dir_bits` each iteration. -/
def buildDirSizeAux (block_sz dir_size dir_bits : Nat) : Nat × Nat :=
  if dir_size < block_sz ∧ dir_bits < GDBM_HASH_BITS - 3 then
    buildDirSizeAux block_sz (dir_size * 2) (dir_bits + 1)
  else
    (dir_size, dir_bits)
termination_by GDBM_HASH_BITS - 3 - dir_bits
decreasing_by omega

/-- `build_dir_size(block_sz)` (`src/dir.rs`): starts from
`dir_size = 8 * 8`, `dir_bits = 3` and runs the doubling loop. -/
def build_dir_size (block_sz : Nat) : Nat × Nat :=
  buildDirSizeAux block_sz (8 * 8) 3

/-- `struct Directory` (`src/dir.rs`): a vector of bucket offsets. -/
structure Directory where
  dir : List Nat
deriving DecidableEq, Repr

/-- `Directory::len` (`src/dir.rs`). -/
def Directory.len (d : Directory) : Nat := d.dir.length

/-- `Directory::serialize(alignment, endian)` (`src/dir.rs`): each offset
through `woff_t`, in index order. -/
def Directory.serialize (d : Directory) (alignment : Alignment)
    (endian : Endian) : List Nat :=
  (d.dir.map (woff_t_al alignment endian)).flatten

/-- `dirent_elem_size(alignment)` (`src/dir.rs`). -/
def dirent_elem_size (alignment : Alignment) : Nat :=
  match alignment with
  | .align32 => 4
  | .align64 => 8

/-- `roff_t(f, alignment, endian)` (`src/dir.rs`): read one offset value
at the geometry's width and byte order, zero-extending the 32-bit case. -/
def roff_t (s : List Nat) (alignment : Alignment) (endian : Endian) :
    Except IoError (Nat × List Nat) :=
  if endian = Endian.little then
    if alignment = Alignment.align64 then read_u64_le s
    else read_u32_le s
  else if alignment = Alignment.align64 then read_u64_be s
  else read_u32_be s

/-- `dir_reader(f, header)` (`src/dir.rs`): seek the file to
`header.dir_ofs`, then read `header.dir_sz / dirent_elem_size` offsets in
sequence.  The file is a byte list; the seek is `List.drop`. -/
def dir_reader (f : List Nat) (header : Header) :
    Except IoError (List Nat) := do
  let dirent_count := header.dir_sz / dirent_elem_size header.alignment
  let s := f.drop header.dir_ofs
  let (dir, _) ← readN dirent_count
    (fun s => roff_t s header.alignment header.endian) s
  .ok dir

/-- `struct BucketCache` (`src/bucket.rs`).  `bucket_map` models the
`HashMap<u64, Bucket>` as a lookup function; `dirty` models the
`HashMap<u64, bool>` (whose values are always `true`) as the finite set
of its keys. -/
structure BucketCache where
  bucket_map : Nat → Option Bucket
  dirty : Finset Nat

/-- `BucketCache::new()`. -/
def BucketCache.new : BucketCache :=
  { bucket_map := fun _ => none, dirty := ∅ }

/-- `BucketCache::dirty(bucket_ofs)`: `self.dirty.insert(bucket_ofs, true)`. -/
def BucketCache.mark_dirty (c : BucketCache) (bucket_ofs : Nat) : BucketCache :=
  { c with dirty := insert bucket_ofs c.dirty }

/-- `BucketCache::dirty_list()`: collect the dirty offsets and sort them
ascending. -/
def BucketCache.dirty_list (c : BucketCache) : List Nat :=
  c.dirty.sort (· ≤ ·)

/-- `BucketCache::clear_dirty()`: `self.dirty.clear()`. -/
def BucketCache.clear_dirty (c : BucketCache) : BucketCache :=
  { c with dirty := ∅ }

/-- `BucketCache::contains(bucket_ofs)`. -/
def BucketCache.contains (c : BucketCache) (bucket_ofs : Nat) : Bool :=
  (c.bucket_map bucket_ofs).isSome

/-- `BucketCache::insert(bucket_ofs, bucket)`: store without touching the
dirty set. -/
def BucketCache.insert (c : BucketCache) (bucket_ofs : Nat) (bucket : Bucket) :
    BucketCache :=
  { c with bucket_map := fun k => if k = bucket_ofs then some bucket
                                  else c.bucket_map k }

/-- `BucketCache::update(bucket_ofs, bucket)`: store, then mark dirty. -/
def BucketCache.update (c : BucketCache) (bucket_ofs : Nat) (bucket : Bucket) :
    BucketCache :=
  (c.insert bucket_ofs bucket).mark_dirty bucket_ofs

/-- One call against the cache, for stating temporal properties over
call sequences. -/
inductive CacheOp where
  | insert (bucket_ofs : Nat) (bucket : Bucket) : CacheOp
  | update (bucket_ofs : Nat) (bucket : Bucket) : CacheOp
  | mark_dirty (bucket_ofs : Nat) : CacheOp
  | clear_dirty : CacheOp

/-- Interpret one cache call. -/
def BucketCache.applyOp (c : BucketCache) : CacheOp → BucketCache
  | .insert ofs b => c.insert ofs b
  | .update ofs b => c.update ofs b
  | .mark_dirty ofs => c.mark_dirty ofs
  | .clear_dirty => c.clear_dirty

/-- Interpret a sequence of cache calls, oldest first. -/
def BucketCache.applyOps (c : BucketCache) (ops : List CacheOp) : BucketCache :=
  ops.foldl BucketCache.applyOp c

theorem exceptBind_ok {ε α β : Type} (a : α) (f : α → Except ε β) :
    (Except.ok a >>= f) = f a := rfl

theorem exceptBind_error {ε α β : Type} (e : ε) (f : α → Except ε β) :
    ((Except.error e : Except ε α) >>= f) = .error e := rfl

theorem read_key_start_append (ks tail : List Nat) (h : ks.length = 4) :
    read_key_start (ks ++ tail) = (ks, tail) := by
  have h0 : 4 - (ks ++ tail).length = 0 := by
    simp [h]
  simp [read_key_start, h0, List.take_left', List.drop_left', h]

/-- The `u32`/`u64` field-range invariants carried by the Rust types of
`AvailElem`. -/
def AvailElem.WF (is_lfs : Bool) (e : AvailElem) : Prop :=
  e.sz < 2^32 ∧ e.addr < (if is_lfs then 2^64 else 2^32)

/-- The field-range invariants carried by the Rust types of
`BucketElement`: `u32` fields, a 4-byte `key_start`, and a `data_ofs`
that fits the selected offset width. -/
def BucketElement.WF (is_lfs : Bool) (e : BucketElement) : Prop :=
  e.hash < 2^32 ∧ e.key_start.length = 4
    ∧ e.data_ofs < (if is_lfs then 2^64 else 2^32)
    ∧ e.key_size < 2^32 ∧ e.data_size < 2^32

instance (is_lfs : Bool) (e : AvailElem) : Decidable (e.WF is_lfs) := by
  unfold AvailElem.WF; infer_instance

instance (is_lfs : Bool) (e : BucketElement) : Decidable (e.WF is_lfs) := by
  unfold BucketElement.WF; infer_instance

theorem avail_from_reader_serialize (is_lfs : Bool) (e : AvailElem)
    (hwf : e.WF is_lfs) (rest : List Nat) :
    AvailElem.from_reader is_lfs (e.serialize is_lfs true ++ rest) =
      .ok (e, rest) := by
  obtain ⟨h1, h2⟩ := hwf
  cases is_lfs with
  | false =>
    simp only [AvailElem.from_reader, AvailElem.serialize, woff_t,
      Bool.false_eq_true, reduceIte, List.append_assoc,
      read_u32_le_w32 _ h1, read_u32_le_w32 _ (by simpa using h2),
      exceptBind_ok]
  | true =>
    simp only [AvailElem.from_reader, AvailElem.serialize, woff_t, reduceIte,
      List.append_assoc, read_u32_le_w32 _ h1,
      read_u64_le_w64 _ (by simpa using h2), exceptBind_ok]

theorem elem_from_reader_serialize (is_lfs : Bool)
    (e : BucketElement) (hwf : e.WF is_lfs) (rest : List Nat) :
    BucketElement.from_reader is_lfs (e.serialize is_lfs true ++ rest) =
      .ok (e, rest) := by
  obtain ⟨h1, h2, h3, h4, h5⟩ := hwf
  cases is_lfs with
  | false =>
    simp only [BucketElement.from_reader, BucketElement.serialize, woff_t,
      Bool.false_eq_true, reduceIte, List.append_assoc,
      read_u32_le_w32 _ h1, exceptBind_ok,
      read_key_start_append _ _ h2,
      read_u32_le_w32 _ (by simpa using h3), read_u32_le_w32 _ h4,
      read_u32_le_w32 _ h5]
  | true =>
    simp only [BucketElement.from_reader, BucketElement.serialize, woff_t,
      reduceIte, List.append_assoc,
      read_u32_le_w32 _ h1, exceptBind_ok,
      read_key_start_append _ _ h2,
      read_u64_le_w64 _ (by simpa using h3), read_u32_le_w32 _ h4,
      read_u32_le_w32 _ h5]

theorem readN_ok_of_encoded {α : Type}
    (dec : List Nat → Except IoError (α × List Nat)) (enc : α → List Nat)
    (l : List α) (rest : List Nat)
    (h : ∀ a ∈ l, ∀ r, dec (enc a ++ r) = .ok (a, r)) :
    readN l.length dec ((l.map enc).flatten ++ rest) = .ok (l, rest) := by
  induction l with
  | nil => simp [readN]
  | cons a l ih =>
    simp only [List.length_cons, List.map_cons, List.flatten_cons,
      List.append_assoc, readN]
    rw [h a (by simp)]
    simp only [exceptBind_ok]
    rw [ih (fun a ha r => h a (by simp [ha]) r)]
    simp only [exceptBind_ok]

theorem bucket_from_reader_serialize (header : Header) (b : Bucket)
    (hl : header.is_lfs = true)
    (hav : b.avail.length = BUCKET_AVAIL)
    (havwf : ∀ a ∈ b.avail, a.WF true)
    (htl : b.tab.length = header.bucket_elems)
    (htwf : ∀ e ∈ b.tab, e.WF true)
    (hac : b.av_count < 2^32) (hb : b.bits < 2^32) (hc : b.count < 2^32)
    (hcnt : b.count ≤ header.bucket_elems) (hbits : b.bits ≤ header.dir_bits)
    (rest : List Nat) :
    Bucket.from_reader header (b.serialize true true ++ rest) =
      .ok (b, rest) := by
  simp only [Bucket.from_reader, Bucket.serialize, hl, reduceIte,
    List.append_assoc, read_u32_le_w32 _ hac, exceptBind_ok,
    read_u32_le_w32 0 (by norm_num)]
  rw [← hav, readN_ok_of_encoded _ (AvailElem.serialize · true true) b.avail _
    (fun a ha r => avail_from_reader_serialize true a (havwf a ha) r)]
  simp only [exceptBind_ok, read_u32_le_w32 _ hb, read_u32_le_w32 _ hc]
  rw [if_neg (not_not_intro ⟨hcnt, hbits⟩)]
  rw [← htl, readN_ok_of_encoded _ (BucketElement.serialize · true true) b.tab _
    (fun e he r => elem_from_reader_serialize true e (htwf e he) r)]
  simp only [exceptBind_ok]

theorem roff_t_woff_t_al (a : Alignment) (en : Endian) (v : Nat)
    (rest : List Nat) (h : v < 2^(8 * dirent_elem_size a)) :
    roff_t (woff_t_al a en v ++ rest) a en = .ok (v, rest) := by
  cases a with
  | align32 =>
    cases en with
    | little =>
      simpa [roff_t, woff_t_al, woff_t, Alignment.isWide, Endian.isLE]
        using read_u32_le_w32 v (by simpa [dirent_elem_size] using h) rest
    | big =>
      simpa [roff_t, woff_t_al, woff_t, Alignment.isWide, Endian.isLE]
        using read_u32_be_w32 v (by simpa [dirent_elem_size] using h) rest
  | align64 =>
    cases en with
    | little =>
      simpa [roff_t, woff_t_al, woff_t, Alignment.isWide, Endian.isLE]
        using read_u64_le_w64 v (by simpa [dirent_elem_size] using h) rest
    | big =>
      simpa [roff_t, woff_t_al, woff_t, Alignment.isWide, Endian.isLE]
        using read_u64_be_w64 v (by simpa [dirent_elem_size] using h) rest

theorem dir_reader_serialize (header : Header) (d : Directory)
    (pad : List Nat) (hofs : pad.length = header.dir_ofs)
    (hsz : header.dir_sz = d.dir.length * dirent_elem_size header.alignment)
    (hwf : ∀ v ∈ d.dir, v < 2^(8 * dirent_elem_size header.alignment)) :
    dir_reader (pad ++ d.serialize header.alignment header.endian) header =
      .ok d.dir := by
  have hpos : 0 < dirent_elem_size header.alignment := by
    cases header.alignment <;> simp [dirent_elem_size]
  have hcount : header.dir_sz / dirent_elem_size header.alignment =
      d.dir.length := by
    rw [hsz]
    exact Nat.mul_div_cancel _ hpos
  have hread := readN_ok_of_encoded
    (fun s => roff_t s header.alignment header.endian)
    (woff_t_al header.alignment header.endian) d.dir []
    (fun v hv r => roff_t_woff_t_al header.alignment header.endian v r (hwf v hv))
  simp only [List.append_nil] at hread
  simp only [dir_reader, Directory.serialize, ← hofs, List.drop_left, hcount,
    hread, exceptBind_ok]

theorem read_u32_le_spec (s : List Nat) :
    read_u32_le s = .error .unexpectedEof ∨
    ∃ v s', read_u32_le s = .ok (v, s') ∧ s'.length + 4 = s.length := by
  match s with
  | [] => exact Or.inl rfl
  | [_] => exact Or.inl rfl
  | [_, _] => exact Or.inl rfl
  | [_, _, _] => exact Or.inl rfl
  | b0 :: b1 :: b2 :: b3 :: rest => exact Or.inr ⟨_, rest, rfl, by simp⟩

theorem read_u32_be_spec (s : List Nat) :
    read_u32_be s = .error .unexpectedEof ∨
    ∃ v s', read_u32_be s = .ok (v, s') ∧ s'.length + 4 = s.length := by
  match s with
  | [] => exact Or.inl rfl
  | [_] => exact Or.inl rfl
  | [_, _] => exact Or.inl rfl
  | [_, _, _] => exact Or.inl rfl
  | b0 :: b1 :: b2 :: b3 :: rest => exact Or.inr ⟨_, rest, rfl, by simp⟩

theorem read_u64_le_spec (s : List Nat) :
    read_u64_le s = .error .unexpectedEof ∨
    ∃ v s', read_u64_le s = .ok (v, s') ∧ s'.length + 8 = s.length := by
  match s with
  | [] => exact Or.inl rfl
  | [_] => exact Or.inl rfl
  | [_, _] => exact Or.inl rfl
  | [_, _, _] => exact Or.inl rfl
  | [_, _, _, _] => exact Or.inl rfl
  | [_, _, _, _, _] => exact Or.inl rfl
  | [_, _, _, _, _, _] => exact Or.inl rfl
  | [_, _, _, _, _, _, _] => exact Or.inl rfl
  | b0 :: b1 :: b2 :: b3 :: b4 :: b5 :: b6 :: b7 :: rest =>
    exact Or.inr ⟨_, rest, rfl, by simp⟩

theorem read_u64_be_spec (s : List Nat) :
    read_u64_be s = .error .unexpectedEof ∨
    ∃ v s', read_u64_be s = .ok (v, s') ∧ s'.length + 8 = s.length := by
  match s with
  | [] => exact Or.inl rfl
  | [_] => exact Or.inl rfl
  | [_, _] => exact Or.inl rfl
  | [_, _, _] => exact Or.inl rfl
  | [_, _, _, _] => exact Or.inl rfl
  | [_, _, _, _, _] => exact Or.inl rfl
  | [_, _, _, _, _, _] => exact Or.inl rfl
  | [_, _, _, _, _, _, _] => exact Or.inl rfl
  | b0 :: b1 :: b2 :: b3 :: b4 :: b5 :: b6 :: b7 :: rest =>
    exact Or.inr ⟨_, rest, rfl, by simp⟩

theorem avail_from_reader_spec (is_lfs : Bool) (s : List Nat) :
    AvailElem.from_reader is_lfs s = .error .unexpectedEof ∨
    ∃ e s', AvailElem.from_reader is_lfs s = .ok (e, s') ∧
      s'.length + availElemSize is_lfs ≤ s.length := by
  cases is_lfs with
  | false =>
    rcases read_u32_le_spec s with h1 | ⟨v1, s1, h1, hl1⟩
    · exact Or.inl (by simp [AvailElem.from_reader, h1, exceptBind_error])
    · rcases read_u32_le_spec s1 with h2 | ⟨v2, s2, h2, hl2⟩
      · exact Or.inl (by simp [AvailElem.from_reader, h1, h2,
          exceptBind_ok, exceptBind_error])
      · exact Or.inr ⟨⟨v1, v2⟩, s2,
          by simp [AvailElem.from_reader, h1, h2, exceptBind_ok],
          by simp only [availElemSize, Bool.false_eq_true, reduceIte]; omega⟩
  | true =>
    rcases read_u32_le_spec s with h1 | ⟨v1, s1, h1, hl1⟩
    · exact Or.inl (by simp [AvailElem.from_reader, h1, exceptBind_error])
    · rcases read_u64_le_spec s1 with h2 | ⟨v2, s2, h2, hl2⟩
      · exact Or.inl (by simp [AvailElem.from_reader, h1, h2,
          exceptBind_ok, exceptBind_error])
      · exact Or.inr ⟨⟨v1, v2⟩, s2,
          by simp [AvailElem.from_reader, h1, h2, exceptBind_ok],
          by simp only [availElemSize, reduceIte]; omega⟩

theorem elem_from_reader_spec (is_lfs : Bool) (s : List Nat) :
    BucketElement.from_reader is_lfs s = .error .unexpectedEof ∨
    ∃ e s', BucketElement.from_reader is_lfs s = .ok (e, s') ∧
      s'.length + bucketElementSize is_lfs ≤ s.length := by
  have hrk : ∀ t : List Nat, (read_key_start t).2 = t.drop 4 := fun t => rfl
  cases is_lfs with
  | false =>
    rcases read_u32_le_spec s with h1 | ⟨v1, s1, h1, hl1⟩
    · exact Or.inl (by simp [BucketElement.from_reader, h1, exceptBind_error])
    · have hd : (s1.drop 4).length = s1.length - 4 := by simp
      rcases read_u32_le_spec (s1.drop 4) with h3 | ⟨v3, s3, h3, hl3⟩
      · exact Or.inl (by simp [BucketElement.from_reader, h1, hrk, h3,
          exceptBind_ok, exceptBind_error])
      · rcases read_u32_le_spec s3 with h4 | ⟨v4, s4, h4, hl4⟩
        · exact Or.inl (by simp [BucketElement.from_reader, h1, hrk, h3, h4,
            exceptBind_ok, exceptBind_error])
        · rcases read_u32_le_spec s4 with h5 | ⟨v5, s5, h5, hl5⟩
          · exact Or.inl (by simp [BucketElement.from_reader, h1, hrk, h3, h4,
              h5, exceptBind_ok, exceptBind_error])
          · exact Or.inr ⟨⟨v1, (read_key_start s1).1, v3, v4, v5⟩, s5,
              by simp [BucketElement.from_reader, h1, hrk, h3, h4, h5,
                exceptBind_ok],
              by simp only [bucketElementSize, Bool.false_eq_true, reduceIte]
                 omega⟩
  | true =>
    rcases read_u32_le_spec s with h1 | ⟨v1, s1, h1, hl1⟩
    · exact Or.inl (by simp [BucketElement.from_reader, h1, exceptBind_error])
    · have hd : (s1.drop 4).length = s1.length - 4 := by simp
      rcases read_u64_le_spec (s1.drop 4) with h3 | ⟨v3, s3, h3, hl3⟩
      · exact Or.inl (by simp [BucketElement.from_reader, h1, hrk, h3,
          exceptBind_ok, exceptBind_error])
      · rcases read_u32_le_spec s3 with h4 | ⟨v4, s4, h4, hl4⟩
        · exact Or.inl (by simp [BucketElement.from_reader, h1, hrk, h3, h4,
            exceptBind_ok, exceptBind_error])
        · rcases read_u32_le_spec s4 with h5 | ⟨v5, s5, h5, hl5⟩
          · exact Or.inl (by simp [BucketElement.from_reader, h1, hrk, h3, h4,
              h5, exceptBind_ok, exceptBind_error])
          · exact Or.inr ⟨⟨v1, (read_key_start s1).1, v3, v4, v5⟩, s5,
              by simp [BucketElement.from_reader, h1, hrk, h3, h4, h5,
                exceptBind_ok],
              by simp only [bucketElementSize, reduceIte]
                 omega⟩

theorem readN_spec {α : Type}
    (dec : List Nat → Except IoError (α × List Nat)) (k : Nat)
    (hdec : ∀ s, dec s = .error .unexpectedEof ∨
      ∃ a s', dec s = .ok (a, s') ∧ s'.length + k ≤ s.length) :
    ∀ (n : Nat) (s : List Nat),
      readN n dec s = .error .unexpectedEof ∨
      ∃ l s', readN n dec s = .ok (l, s') ∧
        s'.length + n * k ≤ s.length ∧ l.length = n := by
  intro n
  induction n with
  | zero => exact fun s => Or.inr ⟨[], s, rfl, by simp, rfl⟩
  | succ n ih =>
    intro s
    rcases hdec s with h1 | ⟨a, s1, h1, hl1⟩
    · exact Or.inl (by simp [readN, h1, exceptBind_error])
    · rcases ih s1 with h2 | ⟨l, s2, h2, hl2, hlen⟩
      · exact Or.inl (by simp [readN, h1, h2, exceptBind_ok, exceptBind_error])
      · refine Or.inr ⟨a :: l, s2,
          by simp [readN, h1, h2, exceptBind_ok], ?_, by simp [hlen]⟩
        have hexp : (n + 1) * k = n * k + k := by ring
        rw [hexp]
        linarith

theorem bucket_from_reader_spec (header : Header) (s : List Nat) :
    Bucket.from_reader header s = .error .unexpectedEof ∨
    Bucket.from_reader header s = .error (.other "invalid bucket c/b") ∨
    ∃ b s', Bucket.from_reader header s = .ok (b, s') ∧
      s'.length + bucketMinSize header ≤ s.length ∧
      b.avail.length = BUCKET_AVAIL ∧ b.tab.length = header.bucket_elems := by
  rcases read_u32_le_spec s with h1 | ⟨v1, s1, h1, hl1⟩
  · exact Or.inl (by simp [Bucket.from_reader, h1, exceptBind_error])
  · rcases read_u32_le_spec s1 with h2 | ⟨v2, s2, h2, hl2⟩
    · exact Or.inl (by simp [Bucket.from_reader, h1, h2,
        exceptBind_ok, exceptBind_error])
    · rcases readN_spec (AvailElem.from_reader header.is_lfs)
        (availElemSize header.is_lfs)
        (avail_from_reader_spec header.is_lfs) BUCKET_AVAIL s2 with
        h3 | ⟨avail, s3, h3, hl3, hlav⟩
      · exact Or.inl (by simp [Bucket.from_reader, h1, h2, h3,
          exceptBind_ok, exceptBind_error])
      · rcases read_u32_le_spec s3 with h4 | ⟨v4, s4, h4, hl4⟩
        · exact Or.inl (by simp [Bucket.from_reader, h1, h2, h3, h4,
            exceptBind_ok, exceptBind_error])
        · rcases read_u32_le_spec s4 with h5 | ⟨v5, s5, h5, hl5⟩
          · exact Or.inl (by simp [Bucket.from_reader, h1, h2, h3, h4, h5,
              exceptBind_ok, exceptBind_error])
          · by_cases hgeo : v5 ≤ header.bucket_elems ∧ v4 ≤ header.dir_bits
            · rcases readN_spec (BucketElement.from_reader header.is_lfs)
                (bucketElementSize header.is_lfs)
                (elem_from_reader_spec header.is_lfs)
                header.bucket_elems s5 with h6 | ⟨tab, s6, h6, hl6, hltab⟩
              · exact Or.inl (by simp [Bucket.from_reader, h1, h2, h3, h4, h5,
                  h6, hgeo, exceptBind_ok, exceptBind_error])
              · refine Or.inr (Or.inr ⟨⟨v1, avail, v4, v5, tab⟩, s6,
                  by simp [Bucket.from_reader, h1, h2, h3, h4, h5, h6, hgeo,
                    exceptBind_ok], ?_, hlav, hltab⟩)
                simp only [bucketMinSize, BUCKET_AVAIL] at hl3 ⊢
                linarith
            · exact Or.inr (Or.inl (by simp [Bucket.from_reader, h1, h2, h3,
                h4, h5, hgeo, exceptBind_ok]))

theorem roff_t_spec (a : Alignment) (en : Endian) (s : List Nat) :
    roff_t s a en = .error .unexpectedEof ∨
    ∃ v s', roff_t s a en = .ok (v, s') ∧
      s'.length + dirent_elem_size a ≤ s.length := by
  cases a <;> cases en <;>
    simp only [roff_t, dirent_elem_size, reduceCtorEq, reduceIte]
  · rcases read_u32_le_spec s with h | ⟨v, s', h, hl⟩
    · exact Or.inl h
    · exact Or.inr ⟨v, s', h, by omega⟩
  · rcases read_u32_be_spec s with h | ⟨v, s', h, hl⟩
    · exact Or.inl h
    · exact Or.inr ⟨v, s', h, by omega⟩
  · rcases read_u64_le_spec s with h | ⟨v, s', h, hl⟩
    · exact Or.inl h
    · exact Or.inr ⟨v, s', h, by omega⟩
  · rcases read_u64_be_spec s with h | ⟨v, s', h, hl⟩
    · exact Or.inl h
    · exact Or.inr ⟨v, s', h, by omega⟩


theorem elem_from_reader_short (is_lfs : Bool) (s : List Nat)
    (h : s.length < bucketElementSize is_lfs) :
    BucketElement.from_reader is_lfs s = .error .unexpectedEof := by
  rcases elem_from_reader_spec is_lfs s with he | ⟨e, s', hok, hl⟩
  · exact he
  · omega

theorem bucket_from_reader_short (header : Header) (s : List Nat)
    (h : s.length < bucketMinSize header) :
    Bucket.from_reader header s = .error .unexpectedEof ∨
    Bucket.from_reader header s = .error (.other "invalid bucket c/b") := by
  rcases bucket_from_reader_spec header s with he | he | ⟨b, s', hok, hl, _⟩
  · exact Or.inl he
  · exact Or.inr he
  · omega

theorem roff_t_short (a : Alignment) (en : Endian) (s : List Nat)
    (h : s.length < dirent_elem_size a) :
    roff_t s a en = .error .unexpectedEof := by
  rcases roff_t_spec a en s with he | ⟨v, s', hok, hl⟩
  · exact he
  · omega

theorem dir_reader_short (header : Header) (f : List Nat)
    (h : f.length - header.dir_ofs <
      (header.dir_sz / dirent_elem_size header.alignment) *
        dirent_elem_size header.alignment) :
    dir_reader f header = .error .unexpectedEof := by
  have hdl : (f.drop header.dir_ofs).length = f.length - header.dir_ofs := by
    simp
  rcases readN_spec (fun s => roff_t s header.alignment header.endian)
    (dirent_elem_size header.alignment)
    (fun s => roff_t_spec header.alignment header.endian s)
    (header.dir_sz / dirent_elem_size header.alignment)
    (f.drop header.dir_ofs) with he | ⟨l, s', hok, hl, _⟩
  · simp [dir_reader, he, exceptBind_error]
  · rw [hdl] at hl
    linarith

theorem BucketCache.dirty_subset_applyOp (c : BucketCache) (op : CacheOp)
    (h : op ≠ CacheOp.clear_dirty) : c.dirty ⊆ (c.applyOp op).dirty := by
  cases op with
  | insert ofs b => exact Finset.Subset.refl _
  | update ofs b => exact Finset.subset_insert _ _
  | mark_dirty ofs => exact Finset.subset_insert _ _
  | clear_dirty => exact absurd rfl h

theorem BucketCache.dirty_mem_applyOps (ops : List CacheOp)
    (h : CacheOp.clear_dirty ∉ ops) (c : BucketCache) (ofs : Nat)
    (hm : ofs ∈ c.dirty) : ofs ∈ (c.applyOps ops).dirty := by
  induction ops generalizing c with
  | nil => exact hm
  | cons op ops ih =>
    have h1 : op ≠ CacheOp.clear_dirty := by
      intro he
      exact h (by simp [he])
    have h2 : CacheOp.clear_dirty ∉ ops := by
      intro he
      exact h (by simp [he])
    exact ih h2 (c.applyOp op) (BucketCache.dirty_subset_applyOp c op h1 hm)


instance {ε α : Type} [DecidableEq ε] [DecidableEq α] :
    DecidableEq (Except ε α) := fun x y =>
  match x, y with
  | .ok a, .ok b =>
    if h : a = b then isTrue (by rw [h])
    else isFalse (fun hc => h (Except.ok.inj hc))
  | .error e, .error f =>
    if h : e = f then isTrue (by rw [h])
    else isFalse (fun hc => h (Except.error.inj hc))
  | .ok _, .error _ => isFalse (fun hc => Except.noConfusion hc)
  | .error _, .ok _ => isFalse (fun hc => Except.noConfusion hc)

/-! Concrete fixtures used by witnesses and counterexamples. -/

/-- A wide-offset, little-endian geometry with one element slot. -/
def hdrW : Header := ⟨true, 1, 3, 0, 0, Alignment.align64, Endian.little⟩

/-- A narrow-offset, little-endian geometry with one element slot. -/
def hdrN : Header := ⟨false, 1, 3, 0, 0, Alignment.align32, Endian.little⟩

/-- A geometry whose directory holds two 4-byte entries. -/
def hdrD : Header := ⟨false, 1, 3, 0, 8, Alignment.align32, Endian.little⟩

/-- A big-endian geometry whose directory holds three 4-byte entries at
file offset 2. -/
def hdrD2 : Header := ⟨false, 1, 3, 2, 12, Alignment.align32, Endian.big⟩

/-- A bucket element with a non-palindromic hash. -/
def eFix : BucketElement := ⟨1, [0, 0, 0, 0], 0, 0, 0⟩

/-- A bucket with six avail elements and one table entry. -/
def bFix : Bucket :=
  ⟨0, List.replicate 6 ⟨0, 0⟩, 0, 0, [⟨1, [0, 0, 0, 0], 0, 0, 0⟩]⟩

/-- The bucket decoded from 84 zero bytes under `hdrN`. -/
def bZero : Bucket :=
  ⟨0, List.replicate 6 ⟨0, 0⟩, 0, 0, [⟨0, [0, 0, 0, 0], 0, 0, 0⟩]⟩

/-- A 64-byte stream whose `count` field (last four bytes) holds 5. -/
def c4input : List Nat := List.replicate 60 0 ++ [5, 0, 0, 0]


/-- **C1** (amended): for the wide-offset geometry with little-endian
byte order, decoding the byte sequence produced by encoding a `Bucket`
with exactly 6 avail elements, `count ≤ bucket_elems`,
`bits ≤ dir_bits`, a full table, and fields in their machine-integer
ranges yields the same bucket again.  (As stated over both offset widths
and both byte orders the claim fails: see the counterexample.) -/
theorem c1_bucket_roundtrip (header : Header) (b : Bucket)
    (hl : header.is_lfs = true) (hav : b.avail.length = BUCKET_AVAIL)
    (havwf : ∀ a ∈ b.avail, a.WF true)
    (htl : b.tab.length = header.bucket_elems)
    (htwf : ∀ e ∈ b.tab, e.WF true)
    (hac : b.av_count < 2^32) (hb : b.bits < 2^32) (hc : b.count < 2^32)
    (hcnt : b.count ≤ header.bucket_elems)
    (hbits : b.bits ≤ header.dir_bits) :
    Bucket.from_reader header (b.serialize true true) = .ok (b, []) := by
  simpa using bucket_from_reader_serialize header b hl hav havwf htl htwf
    hac hb hc hcnt hbits []

/-- **C1 witness**: the round-trip theorem applied to a concrete wide
little-endian bucket. -/
theorem c1_bucket_roundtrip_witness :
    Bucket.from_reader hdrW (bFix.serialize true true) = .ok (bFix, []) :=
  c1_bucket_roundtrip hdrW bFix (by decide) (by decide) (by decide)
    (by decide) (by decide) (by decide) (by decide) (by decide) (by decide)
    (by decide)

/-- **C1 counterexample**: the round-trip fails for the narrow-offset
little-endian geometry (`Bucket::serialize` omits the padding word that
`Bucket::from_reader` consumes unconditionally, so the decode misaligns
and hits end of input), and for the wide-offset big-endian geometry
(`Bucket::from_reader` reads little-endian only, so the table hash comes
back byte-swapped). -/
theorem c1_bucket_roundtrip_counterexample :
    Bucket.from_reader hdrN (bFix.serialize false true) ≠ .ok (bFix, []) ∧
    Bucket.from_reader hdrW (bFix.serialize true false) ≠ .ok (bFix, []) := by
  decide

/-- **C2** (amended): for both offset widths, with little-endian byte
order, decoding the byte sequence produced by encoding a
`BucketElement` with fields in their machine-integer ranges yields the
same element again.  (As stated over both byte orders the claim fails:
see the counterexample.) -/
theorem c2_element_roundtrip (is_lfs : Bool) (e : BucketElement)
    (hwf : e.WF is_lfs) :
    BucketElement.from_reader is_lfs (e.serialize is_lfs true) =
      .ok (e, []) := by
  simpa using elem_from_reader_serialize is_lfs e hwf []

/-- **C2 witness**: the element round-trip applied at a concrete wide
element. -/
theorem c2_element_roundtrip_witness :
    BucketElement.from_reader true (eFix.serialize true true) =
      .ok (eFix, []) :=
  c2_element_roundtrip true eFix (by decide)

/-- **C2 counterexample**: a big-endian encoding does not decode back
(`BucketElement::from_reader` always reads little-endian; hash 1 comes
back as 16777216). -/
theorem c2_element_roundtrip_counterexample :
    BucketElement.from_reader false (eFix.serialize false false) ≠
      .ok (eFix, []) := by
  decide

/-- **C3**: for every geometry and every byte source whose serialized
`count` field exceeds `bucket_elems` or whose `bits` field exceeds
`dir_bits`, `Bucket::from_reader` fails with the Invalid-Geometry error
(`ErrorKind::Other`, "invalid bucket c/b"), an error distinct from
Truncated-Input (`UnexpectedEof`), and returns no bucket — whatever
bytes follow the `count` field. -/
theorem c3_invalid_geometry_rejection (header : Header)
    (av_count pad bits count : Nat) (avails : List AvailElem)
    (rest : List Nat) (hav : avails.length = BUCKET_AVAIL)
    (havwf : ∀ a ∈ avails, a.WF header.is_lfs)
    (hac : av_count < 2^32) (hp : pad < 2^32) (hb : bits < 2^32)
    (hc : count < 2^32)
    (hbad : ¬(count ≤ header.bucket_elems ∧ bits ≤ header.dir_bits)) :
    Bucket.from_reader header
        (w32 true av_count ++ w32 true pad
          ++ (avails.map (AvailElem.serialize · header.is_lfs true)).flatten
          ++ w32 true bits ++ w32 true count ++ rest)
      = .error (.other "invalid bucket c/b") ∧
    IoError.other "invalid bucket c/b" ≠ IoError.unexpectedEof := by
  refine ⟨?_, by simp⟩
  simp only [Bucket.from_reader, List.append_assoc, read_u32_le_w32 _ hac,
    exceptBind_ok, read_u32_le_w32 _ hp]
  rw [← hav, readN_ok_of_encoded _ (AvailElem.serialize · header.is_lfs true)
    avails _
    (fun a ha r => avail_from_reader_serialize header.is_lfs a
      (havwf a ha) r)]
  simp only [exceptBind_ok, read_u32_le_w32 _ hb, read_u32_le_w32 _ hc]
  rw [if_pos hbad]

/-- **C3 witness**: a stream whose `count` field holds 5 against
`bucket_elems = 1` is rejected with the Invalid-Geometry error. -/
theorem c3_invalid_geometry_rejection_witness :
    Bucket.from_reader hdrN
        (w32 true 0 ++ w32 true 0
          ++ ((List.replicate 6 (⟨0, 0⟩ : AvailElem)).map
              (AvailElem.serialize · hdrN.is_lfs true)).flatten
          ++ w32 true 0 ++ w32 true 5 ++ [])
      = .error (.other "invalid bucket c/b") ∧
    IoError.other "invalid bucket c/b" ≠ IoError.unexpectedEof :=
  c3_invalid_geometry_rejection hdrN 0 0 0 5 (List.replicate 6 ⟨0, 0⟩) []
    (by decide) (by decide) (by decide) (by decide) (by decide) (by decide)
    (by decide)

/-- **C4** (amended): every byte source shorter than the structure's
minimum encoded size is rejected: `BucketElement::from_reader`, `roff_t`
and `dir_reader` fail with Truncated-Input (`UnexpectedEof`);
`Bucket::from_reader` fails with Truncated-Input unless the bytes
already read hold an invalid `count`/`bits` pair, in which case it
fails with the Invalid-Geometry error instead (see the counterexample).
No decoder returns a structure. -/
theorem c4_truncation_rejection :
    (∀ (is_lfs : Bool) (s : List Nat), s.length < bucketElementSize is_lfs →
        BucketElement.from_reader is_lfs s = .error .unexpectedEof) ∧
    (∀ (header : Header) (s : List Nat), s.length < bucketMinSize header →
        Bucket.from_reader header s = .error .unexpectedEof ∨
        Bucket.from_reader header s = .error (.other "invalid bucket c/b")) ∧
    (∀ (a : Alignment) (en : Endian) (s : List Nat),
        s.length < dirent_elem_size a →
        roff_t s a en = .error .unexpectedEof) ∧
    (∀ (header : Header) (f : List Nat),
        f.length - header.dir_ofs <
          (header.dir_sz / dirent_elem_size header.alignment) *
            dirent_elem_size header.alignment →
        dir_reader f header = .error .unexpectedEof) :=
  ⟨elem_from_reader_short, bucket_from_reader_short, roff_t_short,
    dir_reader_short⟩

/-- **C4 witness**: each short-input clause applied at a concrete
truncated source. -/
theorem c4_truncation_rejection_witness :
    BucketElement.from_reader false [0, 1, 2] = .error .unexpectedEof ∧
    (Bucket.from_reader hdrN [0] = .error .unexpectedEof ∨
      Bucket.from_reader hdrN [0] = .error (.other "invalid bucket c/b")) ∧
    roff_t [9] Alignment.align32 Endian.little = .error .unexpectedEof ∧
    dir_reader [] hdrD = .error .unexpectedEof :=
  ⟨c4_truncation_rejection.1 false [0, 1, 2] (by decide),
   c4_truncation_rejection.2.1 hdrN [0] (by decide),
   c4_truncation_rejection.2.2.1 Alignment.align32 Endian.little [9]
     (by decide),
   c4_truncation_rejection.2.2.2 hdrD [] (by decide)⟩

/-- **C4 counterexample**: a 64-byte source — shorter than `hdrN`'s
84-byte minimum bucket size — whose `count` field holds 5 makes
`Bucket::from_reader` fail with the Invalid-Geometry error, not
Truncated-Input, refuting the claim that every short source fails with
Truncated-Input. -/
theorem c4_truncation_rejection_counterexample :
    c4input.length < bucketMinSize hdrN ∧
    Bucket.from_reader hdrN c4input = .error (.other "invalid bucket c/b") ∧
    IoError.other "invalid bucket c/b" ≠ IoError.unexpectedEof := by
  decide

/-- **C5** (amended): an encoded `BucketElement` is 20 bytes when
`wide_offsets` is false and 24 bytes when it is true
(hash 4 + key_start 4 + data_ofs 4-or-8 + key_size 4 + data_size 4),
for either byte order — not the 16/20 bytes the claim states. -/
theorem c5_element_serialized_length (e : BucketElement) (is_le : Bool)
    (h : e.key_start.length = 4) :
    (e.serialize false is_le).length = 20 ∧
    (e.serialize true is_le).length = 24 := by
  constructor <;>
    simp [BucketElement.serialize, woff_t, w32_length, w64_length, h]

/-- **C5 witness**: the length theorem applied at a concrete element. -/
theorem c5_element_serialized_length_witness :
    (eFix.serialize false true).length = 20 ∧
    (eFix.serialize true true).length = 24 :=
  c5_element_serialized_length eFix true (by decide)

/-- **C5 counterexample**: a concrete encoded element is 20 bytes
narrow (not 16) and 24 bytes wide (not 20). -/
theorem c5_element_serialized_length_counterexample :
    (eFix.serialize false true).length ≠ 16 ∧
    (eFix.serialize true true).length ≠ 20 := by
  decide

/-- **C6**: `build_dir_size` starts from `dir_size = 64`,
`dir_bits = 3`, doubles `dir_size` and increments `dir_bits` while
`dir_size < block_sz` and `dir_bits < GDBM_HASH_BITS - 3`, and is the
total function these equations determine; in particular
`build_dir_size 512 = (512, 6)` and `build_dir_size 4096 = (4096, 9)`. -/
theorem c6_build_dir_size_spec :
    (∀ block_sz : Nat, build_dir_size block_sz =
        buildDirSizeAux block_sz 64 3) ∧
    (∀ block_sz dir_size dir_bits : Nat,
        dir_size < block_sz ∧ dir_bits < GDBM_HASH_BITS - 3 →
        buildDirSizeAux block_sz dir_size dir_bits =
          buildDirSizeAux block_sz (dir_size * 2) (dir_bits + 1)) ∧
    (∀ block_sz dir_size dir_bits : Nat,
        ¬(dir_size < block_sz ∧ dir_bits < GDBM_HASH_BITS - 3) →
        buildDirSizeAux block_sz dir_size dir_bits = (dir_size, dir_bits)) ∧
    build_dir_size 512 = (512, 6) ∧ build_dir_size 4096 = (4096, 9) := by
  refine ⟨fun _ => rfl, ?_, ?_, ?_, ?_⟩
  · intro bs ds db h
    rw [buildDirSizeAux, if_pos h]
  · intro bs ds db h
    rw [buildDirSizeAux, if_neg h]
  · simp [build_dir_size, buildDirSizeAux, GDBM_HASH_BITS]
  · simp [build_dir_size, buildDirSizeAux, GDBM_HASH_BITS]

/-- **C6 witness**: one doubling step and one stop step at concrete
arguments. -/
theorem c6_build_dir_size_spec_witness :
    buildDirSizeAux 512 64 3 = buildDirSizeAux 512 128 4 ∧
    buildDirSizeAux 512 512 6 = (512, 6) :=
  ⟨by
    have h := c6_build_dir_size_spec.2.1 512 64 3 (by decide)
    simpa using h,
   c6_build_dir_size_spec.2.2.1 512 512 6 (by decide)⟩

/-- **C7**: reading back (`dir_reader`) the bytes produced by
`Directory::serialize` — placed at `dir_offset` with
`dir_size = n * element_width` — yields the same `n` offsets, for both
alignments and both byte orders, provided each offset fits the element
width. -/
theorem c7_directory_roundtrip (header : Header) (d : Directory)
    (pad : List Nat) (hofs : pad.length = header.dir_ofs)
    (hsz : header.dir_sz = d.dir.length * dirent_elem_size header.alignment)
    (hwf : ∀ v ∈ d.dir, v < 2^(8 * dirent_elem_size header.alignment)) :
    dir_reader (pad ++ d.serialize header.alignment header.endian) header =
      .ok d.dir :=
  dir_reader_serialize header d pad hofs hsz hwf

/-- **C7 witness**: the directory round-trip at a concrete big-endian
32-bit directory behind a 2-byte file preamble. -/
theorem c7_directory_roundtrip_witness :
    dir_reader
        ([9, 9] ++ (Directory.mk [1, 2, 4294967295]).serialize
          hdrD2.alignment hdrD2.endian) hdrD2 = .ok [1, 2, 4294967295] :=
  c7_directory_roundtrip hdrD2 ⟨[1, 2, 4294967295]⟩ [9, 9] (by decide)
    (by decide) (by decide)

/-- **C8**: after `update(offset, bucket)` or `mark_dirty(offset)`,
every later `dirty_list()` — across any further calls that do not
include `clear_dirty` — contains that offset; `dirty_list()` is always
sorted ascending; and the concrete scenario
`update(300); update(100); update(200)` yields `[100, 200, 300]`. -/
theorem c8_dirty_offsets_tracking :
    (∀ (c : BucketCache) (ofs : Nat) (b : Bucket) (ops : List CacheOp),
        CacheOp.clear_dirty ∉ ops →
        ofs ∈ ((c.update ofs b).applyOps ops).dirty_list) ∧
    (∀ (c : BucketCache) (ofs : Nat) (ops : List CacheOp),
        CacheOp.clear_dirty ∉ ops →
        ofs ∈ ((c.mark_dirty ofs).applyOps ops).dirty_list) ∧
    (∀ c : BucketCache, (c.dirty_list).Sorted (· ≤ ·)) ∧
    (∀ b1 b2 b3 : Bucket,
        (((BucketCache.new.update 300 b1).update 100 b2).update 200
          b3).dirty_list = [100, 200, 300]) := by
  refine ⟨?_, ?_, fun c => Finset.sort_sorted _ _, ?_⟩
  · intro c ofs b ops hops
    rw [BucketCache.dirty_list, Finset.mem_sort]
    exact BucketCache.dirty_mem_applyOps ops hops _ ofs
      (Finset.mem_insert_self _ _)
  · intro c ofs ops hops
    rw [BucketCache.dirty_list, Finset.mem_sort]
    exact BucketCache.dirty_mem_applyOps ops hops _ ofs
      (Finset.mem_insert_self _ _)
  · intro b1 b2 b3
    have hset : (((BucketCache.new.update 300 b1).update 100 b2).update 200
        b3).dirty = ([100, 200, 300] : List Nat).toFinset := by
      simp only [BucketCache.update, BucketCache.mark_dirty,
        BucketCache.insert, BucketCache.new, List.toFinset_cons,
        List.toFinset_nil]
      ext x
      simp
      tauto
    rw [BucketCache.dirty_list, hset, List.toFinset_sort _ (by decide)]
    decide

/-- **C8 witness**: the persistence clauses applied with an empty list
of further calls. -/
theorem c8_dirty_offsets_tracking_witness :
    300 ∈ ((BucketCache.new.update 300 bFix).applyOps []).dirty_list ∧
    77 ∈ ((BucketCache.new.mark_dirty 77).applyOps []).dirty_list :=
  ⟨c8_dirty_offsets_tracking.1 BucketCache.new 300 bFix [] (by simp),
   c8_dirty_offsets_tracking.2.1 BucketCache.new 77 [] (by simp)⟩

/-- **C9**: `clear_dirty()` empties the dirty set — `dirty_list()` on
the result is `[]` — while leaving the loaded map untouched:
`contains` and the stored bucket at every offset are unchanged. -/
theorem c9_clear_dirty_frame (c : BucketCache) :
    (c.clear_dirty).dirty_list = [] ∧
    (∀ ofs, (c.clear_dirty).contains ofs = c.contains ofs) ∧
    (∀ ofs, (c.clear_dirty).bucket_map ofs = c.bucket_map ofs) := by
  refine ⟨?_, fun _ => rfl, fun _ => rfl⟩
  simp [BucketCache.dirty_list, BucketCache.clear_dirty]

/-- **C10**: every bucket returned successfully by
`Bucket::from_reader` has exactly `BUCKET_AVAIL = 6` avail elements and
exactly `bucket_elems` table entries, so the avail-length assertion in
`Bucket::serialize` holds for it. -/
theorem c10_decoded_bucket_invariants (header : Header) (s : List Nat)
    (b : Bucket) (s' : List Nat)
    (h : Bucket.from_reader header s = .ok (b, s')) :
    b.avail.length = BUCKET_AVAIL ∧ b.tab.length = header.bucket_elems ∧
    b.serializeAssert = true := by
  rcases bucket_from_reader_spec header s with he | he | ⟨b2, s2, hok, _, hav, htl⟩
  · rw [h] at he
    exact Except.noConfusion he
  · rw [h] at he
    exact Except.noConfusion he
  · rw [h] at hok
    obtain ⟨hb, _⟩ := Prod.mk.injEq .. ▸ Except.ok.inj hok
    subst hb
    exact ⟨hav, htl, by simp [Bucket.serializeAssert, hav]⟩

/-- **C10 witness**: the invariants extracted from a concrete
successful decode of 84 zero bytes. -/
theorem c10_decoded_bucket_invariants_witness :
    bZero.avail.length = BUCKET_AVAIL ∧
    bZero.tab.length = hdrN.bucket_elems ∧ bZero.serializeAssert = true :=
  c10_decoded_bucket_invariants hdrN (List.replicate 84 0) bZero []
    (by decide)

end Gdbm
